import Mathlib

/-!
Shallow embedding of the conversation-stage controller of `src/main.py`
(class `RAGApp`).  The Streamlit app re-runs `RAGApp.main` on every user
interaction; session state lives in `st.session_state` and persists across
runs.  We model one run of `main` as a function from the session state and
the values of the widgets rendered during that run to the new session state.
The LLM conversation chain and the uploaded documents are external
collaborators, modelled as opaque function values supplied by the run's
inputs (`newChain`) and stored in the session state (`conversation`), as the
code stores the chain object in `st.session_state.conversation`.
-/

/-- The values of `st.session_state.conversation_stage` in `src/main.py`. -/
inductive Stage
  | initial
  | overview
  | details
  | offer_profile
  | collect_email
  | complete
deriving DecidableEq

/-- One entry of `st.session_state.messages`: `{"role": role, "message": message}`.
The message is `Option String` because `add_message('system',
st.session_state.company_overview)` can append the Python value `None`. -/
structure Msg where
  role : String
  message : Option String
deriving DecidableEq

/-- The conversation chain built by `get_conversation_chain`, viewed as a pure
map from `(question, chat_history)` to the answer string. -/
def ChainFn : Type := String → List (String × String) → String

/-- The session-state variables initialised in `RAGApp.init_session_state`. -/
structure SessionState where
  conversation : Option ChainFn
  chat_history : List (String × String)
  processed_pdfs : Bool
  company_overview : Option String
  conversation_stage : Stage
  email : Option String
  messages : List Msg

/-- The widget values of one run of `RAGApp.main`: which buttons were pressed,
the text inputs, the radio selections (`true` models the `'Yes'` option), and
the chain that `get_conversation_chain` would return for the uploaded files. -/
structure Inputs where
  navUpload : Bool
  navOverview : Bool
  navDetails : Bool
  navProfile : Bool
  processClicked : Bool
  pdfDocsNonempty : Bool
  newChain : ChainFn
  wantMore : Bool
  userQuestion : String
  profileClicked : Bool
  emailOption : Bool
  emailText : String
  confirmClicked : Bool

/-- `RAGApp.init_session_state`: the defaults installed at session start. -/
def init_session_state : SessionState :=
  { conversation := none
    chat_history := []
    processed_pdfs := false
    company_overview := none
    conversation_stage := Stage.initial
    email := none
    messages := [] }

/-- `RAGApp.add_message`: append one `{role, message}` record to
`st.session_state.messages`. -/
def add_message (s : SessionState) (role : String) (message : Option String) :
    SessionState :=
  { s with messages := s.messages ++ [⟨role, message⟩] }

/-- Characters of the local-part class `[a-zA-Z0-9._%+-]` of the regex in
`RAGApp.validate_email`. -/
def isLocalChar (c : Char) : Bool :=
  c.isAlpha || c.isDigit || c == '.' || c == '_' || c == '%' || c == '+' || c == '-'

/-- Characters of the domain class `[a-zA-Z0-9.-]` of the regex in
`RAGApp.validate_email`. -/
def isDomainChar (c : Char) : Bool :=
  c.isAlpha || c.isDigit || c == '.' || c == '-'

/-- The part after the `@` of the regex of `RAGApp.validate_email`:
`[a-zA-Z0-9.-]+\.[a-zA-Z]\x7b2,\x7d` matched against the whole list, split at
its last `.` (the TLD is all letters, so it holds no dot). -/
def emailDomain (rest : List Char) : Bool :=
  match rest.reverse.dropWhile (fun c => decide (c ≠ '.')) with
  | [] => false
  | _ :: domRev =>
    let tldRev := rest.reverse.takeWhile (fun c => decide (c ≠ '.'))
    (!domRev.isEmpty) && domRev.all isDomainChar &&
    tldRev.all Char.isAlpha && decide (2 ≤ tldRev.length)

/-- The regex `^[a-zA-Z0-9._%+-]+@[a-zA-Z0-9.-]+\.[a-zA-Z]\x7b2,\x7d$` matched
against a whole character list (no trailing-newline allowance): split at the
first `@` (neither character class contains `@`), then match the remainder
with `emailDomain`. -/
def emailCore (cs : List Char) : Bool :=
  match cs.dropWhile (fun c => decide (c ≠ '@')) with
  | [] => false
  | _ :: rest =>
    let lp := cs.takeWhile (fun c => decide (c ≠ '@'))
    (!lp.isEmpty) && lp.all isLocalChar && emailDomain rest

/-- `RAGApp.validate_email`: `re.match(r'^[a-zA-Z0-9._%+-]+@[a-zA-Z0-9.-]+\.[a-zA-Z]\x7b2,\x7d$', email)`.
In Python, `$` (without `re.MULTILINE`) matches at the end of the string or
just before one newline at the end, so a single trailing `'\n'` is tolerated. -/
def validate_email (s : String) : Bool :=
  emailCore s.toList ||
    (decide (s.toList.getLast? = some '\n') && emailCore s.toList.dropLast)

/-- `RAGApp.mock_send_email`: prints and returns `True` for every input. -/
def mock_send_email (_ : String) : Bool :=
  true

/-- The `overview_prompt` string of `PDFProcessor.generate_company_overview`. -/
def overview_prompt : String :=
  "\n        Provide a concise 2-sentence overview of the company based on the uploaded documents. \n        Focus on the company's core business, main mission, or key distinguishing features.\n        "

/-- Navigation column 1: the `Upload Documents` button sets the stage to
`initial`. -/
def navUploadBtn (s : SessionState) (i : Inputs) : SessionState :=
  if i.navUpload = true then { s with conversation_stage := Stage.initial } else s

/-- Navigation column 2: the `Company Overview` button is rendered only when
`processed_pdfs`; it sets the stage to `overview`. -/
def navOverviewBtn (s : SessionState) (i : Inputs) : SessionState :=
  if s.processed_pdfs = true ∧ i.navOverview = true then
    { s with conversation_stage := Stage.overview }
  else s

/-- Navigation column 3: the `Ask Questions` button is rendered only when
`processed_pdfs`; it sets the stage to `details`. -/
def navDetailsBtn (s : SessionState) (i : Inputs) : SessionState :=
  if s.processed_pdfs = true ∧ i.navDetails = true then
    { s with conversation_stage := Stage.details }
  else s

/-- Navigation column 4: the `Get Profile` button is rendered only when
`processed_pdfs`; it sets the stage to `offer_profile`. -/
def navProfileBtn (s : SessionState) (i : Inputs) : SessionState :=
  if s.processed_pdfs = true ∧ i.navProfile = true then
    { s with conversation_stage := Stage.offer_profile }
  else s

/-- The four navigation buttons of `RAGApp.main`, in the order rendered. -/
def navStep (s : SessionState) (i : Inputs) : SessionState :=
  navProfileBtn (navDetailsBtn (navOverviewBtn (navUploadBtn s i) i) i) i

/-- The PDF-upload block (`conversation_stage == 'initial'`): on
`Process PDFs` with a non-empty upload, store the chain, mark
`processed_pdfs`, store the generated overview (`generate_company_overview`
calls the chain on `overview_prompt` with empty history), append the system
message, and move to `overview`. -/
def initialStep (s : SessionState) (i : Inputs) : SessionState :=
  if s.conversation_stage = Stage.initial then
    if i.processClicked = true ∧ i.pdfDocsNonempty = true then
      let s1 := { s with conversation := some i.newChain, processed_pdfs := true }
      let s2 := { s1 with company_overview := some (i.newChain overview_prompt []) }
      let s3 := add_message s2 "system" (some "Company documents processed successfully!")
      { s3 with conversation_stage := Stage.overview }
    else s
  else s

/-- The overview-deduplication append of the overview block: add the overview
to the messages only when no existing message equals it. -/
def overviewAppend (s : SessionState) : SessionState :=
  if s.messages.any (fun m => decide (m.message = s.company_overview)) then s
  else add_message s "system" s.company_overview

/-- The guarded overview display (lines 144-150 of `src/main.py`): when
`processed_pdfs` and the stage is `overview`, append the overview to the log
unless an identical message is already present. -/
def requestOverview (s : SessionState) : SessionState :=
  if s.processed_pdfs = true ∧ s.conversation_stage = Stage.overview then
    overviewAppend s
  else s

/-- The company-overview block: the deduplicated overview append followed by
the `want_more` radio (`'Yes'` appends a user message and moves to
`details`). -/
def overviewStep (s : SessionState) (i : Inputs) : SessionState :=
  if s.processed_pdfs = true ∧ s.conversation_stage = Stage.overview then
    let s1 := overviewAppend s
    if i.wantMore = true then
      { (add_message s1 "user" (some "Want to know more about the company")) with
          conversation_stage := Stage.details }
    else s1
  else s

/-- The question-handling part of the details block: on a non-empty question,
append the user message, call the stored chain on the question and the
current `chat_history`, append the answer, and append the pair to
`chat_history`.  Calling a `None` conversation raises in Python; that run is
modelled as `none`. -/
def askStep (s : SessionState) (i : Inputs) : Option SessionState :=
  if i.userQuestion = "" then some s
  else
    match s.conversation with
    | none => none
    | some chain =>
      let s1 := add_message s "user" (some i.userQuestion)
      let bot_answer := chain i.userQuestion s1.chat_history
      let s2 := add_message s1 "system" (some bot_answer)
      some { s2 with chat_history := s2.chat_history ++ [(i.userQuestion, bot_answer)] }

/-- The details block (`conversation_stage == 'details'`): handle the typed
question, then the `I'd like the full company profile` button. -/
def detailsStep (s : SessionState) (i : Inputs) : Option SessionState :=
  if s.conversation_stage = Stage.details then
    match askStep s i with
    | none => none
    | some s1 =>
      if i.profileClicked = true then
        some { s1 with conversation_stage := Stage.offer_profile }
      else some s1
  else some s

/-- The profile-offer block (`conversation_stage == 'offer_profile'`): the
`'Yes'` radio option appends a user message and moves to `collect_email`;
`'No'` appends a system message and leaves the stage. -/
def offerStep (s : SessionState) (i : Inputs) : SessionState :=
  if s.conversation_stage = Stage.offer_profile then
    if i.emailOption = true then
      { (add_message s "user" (some "Interested in receiving company profile")) with
          conversation_stage := Stage.collect_email }
    else add_message s "system" (some "User declined company profile")
  else s

/-- The email-collection block (`conversation_stage == 'collect_email'`): on
`Confirm Email`, a valid address is (mock-)sent, the two messages are
appended and the stage becomes `complete`; an invalid address triggers
`st.error` (the `Bool` component) and changes nothing. -/
def collectStep (s : SessionState) (i : Inputs) : SessionState × Bool :=
  if s.conversation_stage = Stage.collect_email then
    if i.confirmClicked = true then
      if validate_email i.emailText = true then
        if mock_send_email i.emailText = true then
          let s1 := add_message s "user" (some ("Email provided: " ++ i.emailText))
          let s2 := add_message s1 "system" (some ("Company profile sent to " ++ i.emailText))
          ({ s2 with conversation_stage := Stage.complete }, false)
        else (s, false)
      else (s, true)
    else (s, false)
  else (s, false)

/-- The completion block (`conversation_stage == 'complete'`): every render in
this stage appends the system message `"Conversation completed"`. -/
def completeStep (s : SessionState) : SessionState :=
  if s.conversation_stage = Stage.complete then
    add_message s "system" (some "Conversation completed")
  else s

/-- The outcome of one run of `RAGApp.main` that did not raise: the new
session state and whether `st.error` reported an invalid email. -/
structure RunResult where
  state : SessionState
  validationError : Bool

/-- One full run of `RAGApp.main`: the navigation buttons followed by the six
stage blocks, which are sequential `if` statements (not `elif`), so a stage
set earlier in the run is seen by the later blocks of the same run.  `none`
models a run that raised (question asked with no conversation chain). -/
def runMain (s : SessionState) (i : Inputs) : Option RunResult :=
  let s1 := navStep s i
  let s2 := initialStep s1 i
  let s3 := overviewStep s2 i
  (detailsStep s3 i).map (fun s4 =>
    let p := collectStep (offerStep s4 i) i
    ⟨completeStep p.1, p.2⟩)

/-- The email pattern exactly as the spec words it: a non-empty local part
over `[A-Za-z0-9._%+-]`, an `@`, a non-empty domain over `[A-Za-z0-9.-]`, a
dot, and a TLD of two or more letters — the whole string, nothing after the
TLD. -/
def EmailPatternCore (cs : List Char) : Prop :=
  ∃ lp dom tld : List Char,
    cs = lp ++ '@' :: (dom ++ '.' :: tld) ∧
    lp ≠ [] ∧ lp.all isLocalChar = true ∧
    dom ≠ [] ∧ dom.all isDomainChar = true ∧
    2 ≤ tld.length ∧ tld.all Char.isAlpha = true

/-- The email pattern with Python's `$` semantics: the spec's pattern,
optionally followed by one trailing newline. -/
def EmailPatternNL (s : String) : Prop :=
  EmailPatternCore s.toList ∨
    ∃ cs : List Char, s.toList = cs ++ ['\n'] ∧ EmailPatternCore cs

/-- `t`'s messages extend `s`'s messages at the end. -/
def MsgExt (s t : SessionState) : Prop :=
  ∃ u, t.messages = s.messages ++ u

/-! ## Concrete states and inputs used to instantiate the theorems -/

/-- A run with no button pressed, empty text fields, the `'No'` radio options,
and a trivial chain. -/
def iBlank : Inputs :=
  { navUpload := false
    navOverview := false
    navDetails := false
    navProfile := false
    processClicked := false
    pdfDocsNonempty := false
    newChain := fun _ _ => ""
    wantMore := false
    userQuestion := ""
    profileClicked := false
    emailOption := false
    emailText := ""
    confirmClicked := false }

/-- A session sitting in the `complete` stage. -/
def sComplete : SessionState :=
  { init_session_state with conversation_stage := Stage.complete }

/-- A session sitting in the `collect_email` stage. -/
def sCollect : SessionState :=
  { init_session_state with conversation_stage := Stage.collect_email }

/-- A processed session sitting in the `details` stage with a stubbed chain
that always answers "Widgets.". -/
def sDetails : SessionState :=
  { init_session_state with
      conversation := some (fun _ _ => "Widgets.")
      processed_pdfs := true
      conversation_stage := Stage.details }

/-- A processed session in the `overview` stage whose overview text is already
present in the message log. -/
def sOverviewDup : SessionState :=
  { init_session_state with
      processed_pdfs := true
      company_overview := some "Acme Corp sells widgets."
      conversation_stage := Stage.overview
      messages := [⟨"system", some "Acme Corp sells widgets."⟩] }

/-- A processed session in the `overview` stage whose overview text is not yet
in the message log. -/
def sOverviewAbs : SessionState :=
  { init_session_state with
      processed_pdfs := true
      company_overview := some "Acme Corp sells widgets."
      conversation_stage := Stage.overview
      messages := [] }

/-- Confirming the valid address "user@example.com". -/
def iSubmitGood : Inputs :=
  { iBlank with confirmClicked := true, emailText := "user@example.com" }

/-- Confirming the invalid address "bad-email". -/
def iSubmitBad : Inputs :=
  { iBlank with confirmClicked := true, emailText := "bad-email" }

/-- Asking "What do you sell?" in the details stage. -/
def iAsk : Inputs :=
  { iBlank with userQuestion := "What do you sell?" }

/-- Processing an upload whose generated overview is "Acme Corp sells widgets.". -/
def iProcA : Inputs :=
  { iBlank with
      processClicked := true
      pdfDocsNonempty := true
      newChain := fun _ _ => "Acme Corp sells widgets." }

/-- Returning to the upload page and re-processing a different upload whose
generated overview is "Beta LLC rents gadgets.". -/
def iProcB : Inputs :=
  { iBlank with
      navUpload := true
      processClicked := true
      pdfDocsNonempty := true
      newChain := fun _ _ => "Beta LLC rents gadgets." }

/-- The result of processing the first upload of a fresh session (used to
instantiate theorems that take an arbitrary completed run). -/
def rProcA : RunResult :=
  (runMain init_session_state iProcA).getD ⟨init_session_state, true⟩

/-! ## Helper lemmas about the individual blocks -/

lemma navStep_id (s : SessionState) (i : Inputs)
    (h1 : i.navUpload = false) (h2 : i.navOverview = false)
    (h3 : i.navDetails = false) (h4 : i.navProfile = false) :
    navStep s i = s := by
  simp [navStep, navUploadBtn, navOverviewBtn, navDetailsBtn, navProfileBtn,
    h1, h2, h3, h4]

lemma initialStep_ne (s : SessionState) (i : Inputs)
    (h : s.conversation_stage ≠ Stage.initial) : initialStep s i = s := by
  simp [initialStep, h]

lemma overviewStep_ne (s : SessionState) (i : Inputs)
    (h : s.conversation_stage ≠ Stage.overview) : overviewStep s i = s := by
  simp [overviewStep, h]

lemma detailsStep_ne (s : SessionState) (i : Inputs)
    (h : s.conversation_stage ≠ Stage.details) : detailsStep s i = some s := by
  simp [detailsStep, h]

lemma offerStep_ne (s : SessionState) (i : Inputs)
    (h : s.conversation_stage ≠ Stage.offer_profile) : offerStep s i = s := by
  simp [offerStep, h]

lemma collectStep_ne (s : SessionState) (i : Inputs)
    (h : s.conversation_stage ≠ Stage.collect_email) : collectStep s i = (s, false) := by
  simp [collectStep, h]

lemma completeStep_ne (s : SessionState)
    (h : s.conversation_stage ≠ Stage.complete) : completeStep s = s := by
  simp [completeStep, h]

lemma msgExt_refl (s : SessionState) : MsgExt s s :=
  ⟨[], (List.append_nil _).symm⟩

lemma msgExt_of_msgs {s t : SessionState} (h : t.messages = s.messages) :
    MsgExt s t :=
  ⟨[], by rw [h, List.append_nil]⟩

lemma msgExt_trans {s t u : SessionState} (h1 : MsgExt s t) (h2 : MsgExt t u) :
    MsgExt s u := by
  obtain ⟨a, ha⟩ := h1
  obtain ⟨b, hb⟩ := h2
  exact ⟨a ++ b, by rw [hb, ha, List.append_assoc]⟩

lemma msgExt_add (s : SessionState) (role : String) (m : Option String) :
    MsgExt s (add_message s role m) :=
  ⟨[⟨role, m⟩], rfl⟩

lemma msgs_navUploadBtn (s : SessionState) (i : Inputs) :
    (navUploadBtn s i).messages = s.messages := by
  unfold navUploadBtn; split <;> rfl

lemma msgs_navOverviewBtn (s : SessionState) (i : Inputs) :
    (navOverviewBtn s i).messages = s.messages := by
  unfold navOverviewBtn; split <;> rfl

lemma msgs_navDetailsBtn (s : SessionState) (i : Inputs) :
    (navDetailsBtn s i).messages = s.messages := by
  unfold navDetailsBtn; split <;> rfl

lemma msgs_navProfileBtn (s : SessionState) (i : Inputs) :
    (navProfileBtn s i).messages = s.messages := by
  unfold navProfileBtn; split <;> rfl

lemma msgs_navStep (s : SessionState) (i : Inputs) :
    (navStep s i).messages = s.messages := by
  unfold navStep
  rw [msgs_navProfileBtn, msgs_navDetailsBtn, msgs_navOverviewBtn, msgs_navUploadBtn]

lemma msgExt_initialStep (s : SessionState) (i : Inputs) :
    MsgExt s (initialStep s i) := by
  unfold initialStep
  split
  · split
    · exact ⟨[⟨"system", some "Company documents processed successfully!"⟩], rfl⟩
    · exact msgExt_refl s
  · exact msgExt_refl s

lemma msgExt_overviewAppend (s : SessionState) : MsgExt s (overviewAppend s) := by
  unfold overviewAppend
  split
  · exact msgExt_refl s
  · exact ⟨[⟨"system", s.company_overview⟩], rfl⟩

lemma msgExt_overviewStep (s : SessionState) (i : Inputs) :
    MsgExt s (overviewStep s i) := by
  unfold overviewStep
  split
  · split
    · exact msgExt_trans (msgExt_overviewAppend s)
        ⟨[⟨"user", some "Want to know more about the company"⟩], rfl⟩
    · exact msgExt_overviewAppend s
  · exact msgExt_refl s

lemma msgExt_askStep {s t : SessionState} {i : Inputs}
    (h : askStep s i = some t) : MsgExt s t := by
  unfold askStep at h
  split at h
  · exact (Option.some.inj h) ▸ msgExt_refl s
  · cases hc : s.conversation with
    | none => rw [hc] at h; cases h
    | some chain =>
      rw [hc] at h
      refine (Option.some.inj h) ▸ ⟨[⟨"user", some i.userQuestion⟩,
        ⟨"system", some (chain i.userQuestion s.chat_history)⟩], ?_⟩
      simp [add_message, List.append_assoc]

lemma msgExt_detailsStep {s t : SessionState} {i : Inputs}
    (h : detailsStep s i = some t) : MsgExt s t := by
  unfold detailsStep at h
  by_cases hst : s.conversation_stage = Stage.details
  · rw [if_pos hst] at h
    cases ha : askStep s i with
    | none => rw [ha] at h; cases h
    | some s1 =>
      rw [ha] at h
      dsimp only at h
      by_cases hp : i.profileClicked = true
      · rw [if_pos hp] at h
        exact (Option.some.inj h) ▸ msgExt_trans (msgExt_askStep ha) (msgExt_of_msgs rfl)
      · rw [if_neg hp] at h
        exact (Option.some.inj h) ▸ msgExt_askStep ha
  · rw [if_neg hst] at h
    exact (Option.some.inj h) ▸ msgExt_refl s

lemma msgExt_offerStep (s : SessionState) (i : Inputs) :
    MsgExt s (offerStep s i) := by
  unfold offerStep
  split
  · split
    · exact ⟨[⟨"user", some "Interested in receiving company profile"⟩], rfl⟩
    · exact msgExt_add s "system" (some "User declined company profile")
  · exact msgExt_refl s

lemma msgExt_collectStep (s : SessionState) (i : Inputs) :
    MsgExt s (collectStep s i).1 := by
  unfold collectStep
  split
  · split
    · split
      · split
        · exact ⟨[⟨"user", some ("Email provided: " ++ i.emailText)⟩,
            ⟨"system", some ("Company profile sent to " ++ i.emailText)⟩], by
              simp [add_message, List.append_assoc]⟩
        · exact msgExt_refl s
      · exact msgExt_refl s
    · exact msgExt_refl s
  · exact msgExt_refl s

lemma msgExt_completeStep (s : SessionState) : MsgExt s (completeStep s) := by
  unfold completeStep
  split
  · exact msgExt_add s "system" (some "Conversation completed")
  · exact msgExt_refl s

lemma msgExt_runMain {s : SessionState} {i : Inputs} {r : RunResult}
    (h : runMain s i = some r) : MsgExt s r.state := by
  simp only [runMain] at h
  cases hd : detailsStep (overviewStep (initialStep (navStep s i) i) i) i with
  | none => rw [hd] at h; cases h
  | some s4 =>
    rw [hd, Option.map_some'] at h
    have h1 : MsgExt s (navStep s i) := msgExt_of_msgs (msgs_navStep s i)
    have h2 := msgExt_trans h1 (msgExt_initialStep (navStep s i) i)
    have h3 := msgExt_trans h2 (msgExt_overviewStep (initialStep (navStep s i) i) i)
    have h4 := msgExt_trans h3 (msgExt_detailsStep hd)
    have h5 := msgExt_trans h4 (msgExt_offerStep s4 i)
    have h6 := msgExt_trans h5 (msgExt_collectStep (offerStep s4 i) i)
    have h7 := msgExt_trans h6 (msgExt_completeStep (collectStep (offerStep s4 i) i).1)
    exact (Option.some.inj h) ▸ h7

lemma overviewAppend_pos (s : SessionState)
    (h : s.messages.any (fun m => decide (m.message = s.company_overview)) = true) :
    overviewAppend s = s := by
  unfold overviewAppend
  rw [if_pos h]

lemma overviewAppend_neg (s : SessionState)
    (h : s.messages.any (fun m => decide (m.message = s.company_overview)) = false) :
    overviewAppend s = add_message s "system" s.company_overview := by
  unfold overviewAppend
  rw [if_neg (by simp [h])]

lemma overviewAppend_idem (s : SessionState) :
    overviewAppend (overviewAppend s) = overviewAppend s := by
  cases hb : s.messages.any (fun m => decide (m.message = s.company_overview)) with
  | true => rw [overviewAppend_pos s hb, overviewAppend_pos s hb]
  | false =>
    rw [overviewAppend_neg s hb]
    apply overviewAppend_pos
    simp [add_message]

lemma overviewAppend_fields (s : SessionState) :
    (overviewAppend s).processed_pdfs = s.processed_pdfs ∧
    (overviewAppend s).conversation_stage = s.conversation_stage ∧
    (overviewAppend s).company_overview = s.company_overview := by
  unfold overviewAppend
  split <;> exact ⟨rfl, rfl, rfl⟩

lemma ov_navStep (s : SessionState) (i : Inputs) :
    (navStep s i).company_overview = s.company_overview := by
  unfold navStep navUploadBtn navOverviewBtn navDetailsBtn navProfileBtn
  split <;> split <;> split <;> split <;> rfl

lemma ov_overviewStep (s : SessionState) (i : Inputs) :
    (overviewStep s i).company_overview = s.company_overview := by
  unfold overviewStep
  split
  · split
    · exact (overviewAppend_fields s).2.2
    · exact (overviewAppend_fields s).2.2
  · rfl

lemma ov_askStep {s t : SessionState} {i : Inputs}
    (h : askStep s i = some t) : t.company_overview = s.company_overview := by
  unfold askStep at h
  split at h
  · exact (Option.some.inj h) ▸ rfl
  · cases hc : s.conversation with
    | none => rw [hc] at h; cases h
    | some chain =>
      rw [hc] at h
      exact (Option.some.inj h) ▸ rfl

lemma ov_detailsStep {s t : SessionState} {i : Inputs}
    (h : detailsStep s i = some t) : t.company_overview = s.company_overview := by
  unfold detailsStep at h
  by_cases hst : s.conversation_stage = Stage.details
  · rw [if_pos hst] at h
    cases ha : askStep s i with
    | none => rw [ha] at h; cases h
    | some s1 =>
      rw [ha] at h
      dsimp only at h
      by_cases hp : i.profileClicked = true
      · rw [if_pos hp] at h
        rw [← Option.some.inj h]
        show s1.company_overview = s.company_overview
        exact ov_askStep ha
      · rw [if_neg hp] at h
        rw [← Option.some.inj h]
        exact ov_askStep ha
  · rw [if_neg hst] at h
    exact (Option.some.inj h) ▸ rfl

lemma ov_offerStep (s : SessionState) (i : Inputs) :
    (offerStep s i).company_overview = s.company_overview := by
  unfold offerStep
  split
  · split <;> rfl
  · rfl

lemma ov_collectStep (s : SessionState) (i : Inputs) :
    (collectStep s i).1.company_overview = s.company_overview := by
  unfold collectStep
  split
  · split
    · split
      · split <;> rfl
      · rfl
    · rfl
  · rfl

lemma ov_completeStep (s : SessionState) :
    (completeStep s).company_overview = s.company_overview := by
  unfold completeStep
  split <;> rfl

lemma initialStep_ov (s : SessionState) (i : Inputs) :
    (initialStep s i).company_overview =
      if s.conversation_stage = Stage.initial ∧ i.processClicked = true ∧
          i.pdfDocsNonempty = true
      then some (i.newChain overview_prompt [])
      else s.company_overview := by
  unfold initialStep
  by_cases h1 : s.conversation_stage = Stage.initial
  · by_cases h2 : i.processClicked = true ∧ i.pdfDocsNonempty = true
    · rw [if_pos h1, if_pos h2, if_pos ⟨h1, h2⟩]; rfl
    · rw [if_pos h1, if_neg h2, if_neg (fun hh => h2 hh.2)]
  · rw [if_neg h1, if_neg (fun hh => h1 hh.1)]

lemma runMain_ov {s : SessionState} {i : Inputs} {r : RunResult}
    (h : runMain s i = some r) :
    r.state.company_overview = (initialStep (navStep s i) i).company_overview := by
  simp only [runMain] at h
  cases hd : detailsStep (overviewStep (initialStep (navStep s i) i) i) i with
  | none => rw [hd] at h; cases h
  | some s4 =>
    rw [hd, Option.map_some'] at h
    rw [← Option.some.inj h]
    show (completeStep (collectStep (offerStep s4 i) i).1).company_overview = _
    rw [ov_completeStep, ov_collectStep, ov_offerStep, ov_detailsStep hd,
      ov_overviewStep]

lemma collectStep_valid (s : SessionState) (i : Inputs)
    (hst : s.conversation_stage = Stage.collect_email)
    (hc : i.confirmClicked = true) (hv : validate_email i.emailText = true) :
    collectStep s i =
      ({ s with
          conversation_stage := Stage.complete
          messages := s.messages ++
            [⟨"user", some ("Email provided: " ++ i.emailText)⟩,
             ⟨"system", some ("Company profile sent to " ++ i.emailText)⟩] }, false) := by
  simp [collectStep, hst, hc, hv, mock_send_email, add_message, List.append_assoc]

lemma completeStep_pos (s : SessionState)
    (h : s.conversation_stage = Stage.complete) :
    completeStep s = add_message s "system" (some "Conversation completed") := by
  simp [completeStep, h]

lemma collect_valid_run (s : SessionState) (i : Inputs)
    (hst : s.conversation_stage = Stage.collect_email)
    (h1 : i.navUpload = false) (h2 : i.navOverview = false)
    (h3 : i.navDetails = false) (h4 : i.navProfile = false)
    (hc : i.confirmClicked = true) (hv : validate_email i.emailText = true) :
    runMain s i = some ⟨{ s with
        conversation_stage := Stage.complete
        messages := s.messages ++
          [⟨"user", some ("Email provided: " ++ i.emailText)⟩,
           ⟨"system", some ("Company profile sent to " ++ i.emailText)⟩,
           ⟨"system", some "Conversation completed"⟩] }, false⟩ := by
  have hns := navStep_id s i h1 h2 h3 h4
  have his := initialStep_ne s i (by simp [hst])
  have hos := overviewStep_ne s i (by simp [hst])
  have hds := detailsStep_ne s i (by simp [hst])
  have hofs := offerStep_ne s i (by simp [hst])
  have hcs := collectStep_valid s i hst hc hv
  simp only [runMain, hns, his, hos, hds, Option.map_some', hofs, hcs]
  rw [completeStep_pos _ rfl]
  simp [add_message, List.append_assoc]

lemma askStep_pos (s : SessionState) (i : Inputs) (f : ChainFn)
    (hq : i.userQuestion ≠ "") (hchain : s.conversation = some f) :
    askStep s i = some { s with
      chat_history := s.chat_history ++
        [(i.userQuestion, f i.userQuestion s.chat_history)]
      messages := s.messages ++
        [⟨"user", some i.userQuestion⟩,
         ⟨"system", some (f i.userQuestion s.chat_history)⟩] } := by
  simp [askStep, hq, hchain, add_message, List.append_assoc]

lemma detailsStep_pos (s : SessionState) (i : Inputs) (t : SessionState)
    (hst : s.conversation_stage = Stage.details) (hp : i.profileClicked = false)
    (ha : askStep s i = some t) : detailsStep s i = some t := by
  simp [detailsStep, hst, ha, hp]

/-! ## The claims -/

/-- C1 (amended): with the stage at `complete`, a render with no navigation
click leaves the stage `complete` but appends one more system message
"Conversation completed" — every such render appends again, not exactly one
message per session — while the navigation buttons, rendered in every stage,
do leave the `complete` stage: clicking `Upload Documents` moves it back to
`initial`. -/
theorem c1_complete_stage_amended (s : SessionState) (i : Inputs)
    (hst : s.conversation_stage = Stage.complete) :
    ((i.navUpload = false ∧ i.navOverview = false ∧ i.navDetails = false ∧
        i.navProfile = false) →
      runMain s i = some ⟨{ s with messages := s.messages ++
        [⟨"system", some "Conversation completed"⟩] }, false⟩) ∧
    ((i.navUpload = true ∧ i.navOverview = false ∧ i.navDetails = false ∧
        i.navProfile = false ∧ i.processClicked = false) →
      runMain s i = some ⟨{ s with conversation_stage := Stage.initial }, false⟩) := by
  constructor
  · rintro ⟨h1, h2, h3, h4⟩
    have hns := navStep_id s i h1 h2 h3 h4
    have his := initialStep_ne s i (by simp [hst])
    have hos := overviewStep_ne s i (by simp [hst])
    have hds := detailsStep_ne s i (by simp [hst])
    have hofs := offerStep_ne s i (by simp [hst])
    have hcs := collectStep_ne s i (by simp [hst])
    simp only [runMain, hns, his, hos, hds, Option.map_some', hofs, hcs]
    rw [completeStep_pos s hst]
    rfl
  · rintro ⟨h1, h2, h3, h4, h5⟩
    have hns : navStep s i = { s with conversation_stage := Stage.initial } := by
      simp [navStep, navUploadBtn, navOverviewBtn, navDetailsBtn, navProfileBtn,
        h1, h2, h3, h4]
    have his : initialStep { s with conversation_stage := Stage.initial } i =
        { s with conversation_stage := Stage.initial } := by
      simp [initialStep, h5]
    have hos := overviewStep_ne { s with conversation_stage := Stage.initial } i
      (by simp)
    have hds := detailsStep_ne { s with conversation_stage := Stage.initial } i
      (by simp)
    have hofs := offerStep_ne { s with conversation_stage := Stage.initial } i
      (by simp)
    have hcs := collectStep_ne { s with conversation_stage := Stage.initial } i
      (by simp)
    have hcos := completeStep_ne { s with conversation_stage := Stage.initial }
      (by simp)
    simp only [runMain, hns, his, hos, hds, Option.map_some', hofs, hcs, hcos]

/-- C1 witness: the amended behaviour at a concrete `complete`-stage state:
a plain re-render appends "Conversation completed" again, and the
`Upload Documents` navigation button moves the stage to `initial`. -/
theorem c1_witness :
    runMain sComplete iBlank = some ⟨{ sComplete with
        messages := sComplete.messages ++
          [⟨"system", some "Conversation completed"⟩] }, false⟩ ∧
    runMain sComplete { iBlank with navUpload := true } =
      some ⟨{ sComplete with conversation_stage := Stage.initial }, false⟩ :=
  ⟨(c1_complete_stage_amended sComplete iBlank rfl).1 ⟨rfl, rfl, rfl, rfl⟩,
   (c1_complete_stage_amended sComplete { iBlank with navUpload := true } rfl).2
     ⟨rfl, rfl, rfl, rfl, rfl⟩⟩

/-- C1 counterexample: from the `complete` stage, the `Upload Documents`
navigation button — rendered on every page — changes the stage to `initial`,
so not every action applied in `complete` leaves the stage `complete`. -/
theorem c1_counterexample :
    sComplete.conversation_stage = Stage.complete ∧
    (runMain sComplete { iBlank with navUpload := true }).map
        (fun r => r.state.conversation_stage) = some Stage.initial ∧
    Stage.initial ≠ Stage.complete :=
  ⟨rfl, rfl, by decide⟩

/-- C2 (amended): every email accepted by the validator, confirmed in the
`collect_email` stage, appends the user message "Email provided: <email>"
then the system message "Company profile sent to <email>", and moves the
stage to `complete`, whose block runs in the same pass and appends a third
message "Conversation completed"; all other fields are unchanged — in
particular the session email field is never assigned. -/
theorem c2_submit_valid_email_amended (s : SessionState) (i : Inputs)
    (hst : s.conversation_stage = Stage.collect_email)
    (h1 : i.navUpload = false) (h2 : i.navOverview = false)
    (h3 : i.navDetails = false) (h4 : i.navProfile = false)
    (hc : i.confirmClicked = true) (hv : validate_email i.emailText = true) :
    runMain s i = some ⟨{ s with
        conversation_stage := Stage.complete
        messages := s.messages ++
          [⟨"user", some ("Email provided: " ++ i.emailText)⟩,
           ⟨"system", some ("Company profile sent to " ++ i.emailText)⟩,
           ⟨"system", some "Conversation completed"⟩] }, false⟩ :=
  collect_valid_run s i hst h1 h2 h3 h4 hc hv

/-- C2 witness: submitting "user@example.com" from the `collect_email` stage
of a fresh session. -/
theorem c2_witness :
    runMain sCollect iSubmitGood = some ⟨{ sCollect with
        conversation_stage := Stage.complete
        messages := sCollect.messages ++
          [⟨"user", some ("Email provided: " ++ iSubmitGood.emailText)⟩,
           ⟨"system", some ("Company profile sent to " ++ iSubmitGood.emailText)⟩,
           ⟨"system", some "Conversation completed"⟩] }, false⟩ :=
  c2_submit_valid_email_amended sCollect iSubmitGood rfl rfl rfl rfl rfl rfl rfl

/-- C2 counterexample: submitting the accepted address "user@example.com"
reaches the `complete` stage but the session email field is never assigned:
it stays `none` rather than becoming `some "user@example.com"`. -/
theorem c2_counterexample :
    validate_email "user@example.com" = true ∧
    (runMain sCollect iSubmitGood).map (fun r => r.state.email) = some none ∧
    (runMain sCollect iSubmitGood).map (fun r => r.state.conversation_stage) =
      some Stage.complete ∧
    (none : Option String) ≠ some "user@example.com" :=
  ⟨rfl, rfl, rfl, by decide⟩

/-- C4: confirming an email the validator rejects, in the `collect_email`
stage, leaves the entire session state unchanged — stage still
`collect_email`, nothing appended to the message log — and reports a
validation error to the caller. -/
theorem c4_submit_invalid_email (s : SessionState) (i : Inputs)
    (hst : s.conversation_stage = Stage.collect_email)
    (h1 : i.navUpload = false) (h2 : i.navOverview = false)
    (h3 : i.navDetails = false) (h4 : i.navProfile = false)
    (hc : i.confirmClicked = true)
    (hv : validate_email i.emailText = false) :
    runMain s i = some ⟨s, true⟩ := by
  have hns := navStep_id s i h1 h2 h3 h4
  have his := initialStep_ne s i (by simp [hst])
  have hos := overviewStep_ne s i (by simp [hst])
  have hds := detailsStep_ne s i (by simp [hst])
  have hofs := offerStep_ne s i (by simp [hst])
  have hcs : collectStep s i = (s, true) := by simp [collectStep, hst, hc, hv]
  have hcos := completeStep_ne s (by simp [hst])
  simp only [runMain, hns, his, hos, hds, Option.map_some', hofs, hcs, hcos]

/-- C4 witness: submitting "bad-email" from the `collect_email` stage of a
fresh session changes nothing and reports the error. -/
theorem c4_witness : runMain sCollect iSubmitBad = some ⟨sCollect, true⟩ :=
  c4_submit_invalid_email sCollect iSubmitBad rfl rfl rfl rfl rfl rfl rfl

/-- C5: the message log is append-only: every completed run of `main` leaves
the log equal to the old log plus a suffix, so its length never decreases
and existing entries are never reordered, modified, or removed. -/
theorem c5_append_only (s : SessionState) (i : Inputs) (r : RunResult)
    (h : runMain s i = some r) :
    (∃ t, r.state.messages = s.messages ++ t) ∧
      s.messages.length ≤ r.state.messages.length := by
  obtain ⟨t, ht⟩ := msgExt_runMain h
  refine ⟨⟨t, ht⟩, ?_⟩
  rw [ht]
  simp

/-- C5 witness: the blank run on a fresh session extends the (empty) log. -/
theorem c5_witness :
    (∃ t, (⟨init_session_state, false⟩ : RunResult).state.messages =
        init_session_state.messages ++ t) ∧
      init_session_state.messages.length ≤
        (⟨init_session_state, false⟩ : RunResult).state.messages.length :=
  c5_append_only init_session_state iBlank ⟨init_session_state, false⟩ rfl

/-- C7: in the `details` stage with the chain present, a non-empty question
appends the user message and then the chain's answer as a system message (in
that order), where the answer is the chain applied to the question and the
pre-existing exchange history, and appends the (question, answer) pair to
the exchange history. -/
theorem c7_ask_details (s : SessionState) (i : Inputs) (f : ChainFn)
    (hst : s.conversation_stage = Stage.details)
    (h1 : i.navUpload = false) (h2 : i.navOverview = false)
    (h3 : i.navDetails = false) (h4 : i.navProfile = false)
    (hp : i.profileClicked = false) (hq : i.userQuestion ≠ "")
    (hchain : s.conversation = some f) :
    runMain s i = some ⟨{ s with
        chat_history := s.chat_history ++
          [(i.userQuestion, f i.userQuestion s.chat_history)]
        messages := s.messages ++
          [⟨"user", some i.userQuestion⟩,
           ⟨"system", some (f i.userQuestion s.chat_history)⟩] }, false⟩ := by
  have hask := askStep_pos s i f hq hchain
  set s4 : SessionState := { s with
      chat_history := s.chat_history ++
        [(i.userQuestion, f i.userQuestion s.chat_history)]
      messages := s.messages ++
        [⟨"user", some i.userQuestion⟩,
         ⟨"system", some (f i.userQuestion s.chat_history)⟩] }
  have hds := detailsStep_pos s i s4 hst hp hask
  have hns := navStep_id s i h1 h2 h3 h4
  have his := initialStep_ne s i (by simp [hst])
  have hos := overviewStep_ne s i (by simp [hst])
  have hofs := offerStep_ne s4 i (by simp [hst])
  have hcs := collectStep_ne s4 i (by simp [hst])
  have hcos := completeStep_ne s4 (by simp [hst])
  simp only [runMain, hns, his, hos, hds, Option.map_some', hofs, hcs, hcos]

/-- C7 witness: asking "What do you sell?" with a stubbed chain answering
"Widgets." appends the two messages in order and extends the exchange
history by the pair. -/
theorem c7_witness :
    runMain sDetails iAsk = some ⟨{ sDetails with
        chat_history := sDetails.chat_history ++
          [(iAsk.userQuestion, "Widgets.")]
        messages := sDetails.messages ++
          [⟨"user", some iAsk.userQuestion⟩,
           ⟨"system", some "Widgets."⟩] }, false⟩ :=
  c7_ask_details sDetails iAsk (fun _ _ => "Widgets.") rfl rfl rfl rfl rfl rfl
    (by decide) rfl

/-- C8: asking the empty question in the `details` stage changes nothing:
the session state (exchange history and message log included) is returned
unchanged, and the conversation chain is not invoked — the theorem needs no
hypothesis about the stored chain, which may even be absent. -/
theorem c8_ask_empty (s : SessionState) (i : Inputs)
    (hst : s.conversation_stage = Stage.details)
    (h1 : i.navUpload = false) (h2 : i.navOverview = false)
    (h3 : i.navDetails = false) (h4 : i.navProfile = false)
    (hp : i.profileClicked = false) (hq : i.userQuestion = "") :
    runMain s i = some ⟨s, false⟩ := by
  have hns := navStep_id s i h1 h2 h3 h4
  have his := initialStep_ne s i (by simp [hst])
  have hos := overviewStep_ne s i (by simp [hst])
  have hask : askStep s i = some s := by simp [askStep, hq]
  have hds := detailsStep_pos s i s hst hp hask
  have hofs := offerStep_ne s i (by simp [hst])
  have hcs := collectStep_ne s i (by simp [hst])
  have hcos := completeStep_ne s (by simp [hst])
  simp only [runMain, hns, his, hos, hds, Option.map_some', hofs, hcs, hcos]

/-- C8 witness: the empty question in the `details` stage of a session with
no stored chain still returns the state unchanged. -/
theorem c8_witness :
    runMain { sDetails with conversation := none } iBlank =
      some ⟨{ sDetails with conversation := none }, false⟩ :=
  c8_ask_empty { sDetails with conversation := none } iBlank rfl rfl rfl rfl rfl
    rfl rfl

/-- C10: the delivery stub returns `true` on every email, so every validated
submission takes the delivery-succeeded branch and the session reaches the
`complete` stage. -/
theorem c10_mock_delivery :
    (∀ e : String, mock_send_email e = true) ∧
    ∀ (s : SessionState) (i : Inputs),
      s.conversation_stage = Stage.collect_email →
      i.navUpload = false → i.navOverview = false →
      i.navDetails = false → i.navProfile = false →
      i.confirmClicked = true → validate_email i.emailText = true →
      ∃ r : RunResult, runMain s i = some r ∧
        r.state.conversation_stage = Stage.complete := by
  refine ⟨fun e => rfl, fun s i hst h1 h2 h3 h4 hc hv => ?_⟩
  exact ⟨_, collect_valid_run s i hst h1 h2 h3 h4 hc hv, rfl⟩

/-- C10 witness: sending to "user@example.com" succeeds and the concrete
submission run ends in the `complete` stage. -/
theorem c10_witness :
    mock_send_email "user@example.com" = true ∧
    ∃ r : RunResult, runMain sCollect iSubmitGood = some r ∧
      r.state.conversation_stage = Stage.complete :=
  ⟨c10_mock_delivery.1 "user@example.com",
   c10_mock_delivery.2 sCollect iSubmitGood rfl rfl rfl rfl rfl rfl rfl⟩

/-- C6: the overview render appends the overview to the message log only when
no existing entry carries exactly that text (when one does, the render is a
no-op on the state), rendering twice appends at most one entry — the second
render never appends — and when the guard holds with no matching entry it
appends exactly one system entry with the overview text. -/
theorem c6_overview_idempotent (s : SessionState) :
    (s.messages.any (fun m => decide (m.message = s.company_overview)) = true →
      requestOverview s = s) ∧
    requestOverview (requestOverview s) = requestOverview s ∧
    ((s.processed_pdfs = true ∧ s.conversation_stage = Stage.overview ∧
        s.messages.any (fun m => decide (m.message = s.company_overview)) = false) →
      (requestOverview s).messages =
        s.messages ++ [⟨"system", s.company_overview⟩]) := by
  refine ⟨?_, ?_, ?_⟩
  · intro h
    unfold requestOverview
    split
    · exact overviewAppend_pos s h
    · rfl
  · by_cases hg : s.processed_pdfs = true ∧ s.conversation_stage = Stage.overview
    · have h1 : requestOverview s = overviewAppend s := by
        unfold requestOverview; rw [if_pos hg]
      rw [h1]
      have hg2 : (overviewAppend s).processed_pdfs = true ∧
          (overviewAppend s).conversation_stage = Stage.overview := by
        rw [(overviewAppend_fields s).1, (overviewAppend_fields s).2.1]
        exact hg
      unfold requestOverview
      rw [if_pos hg2]
      exact overviewAppend_idem s
    · have h1 : requestOverview s = s := by
        unfold requestOverview; rw [if_neg hg]
      rw [h1, h1]
  · rintro ⟨hp, hs, hn⟩
    unfold requestOverview
    rw [if_pos ⟨hp, hs⟩, overviewAppend_neg s hn]
    rfl

/-- C6 witness: with "Acme Corp sells widgets." already in the log the render
changes nothing; with it absent the render appends exactly that entry. -/
theorem c6_witness :
    requestOverview sOverviewDup = sOverviewDup ∧
    (requestOverview sOverviewAbs).messages =
      sOverviewAbs.messages ++ [⟨"system", some "Acme Corp sells widgets."⟩] :=
  ⟨(c6_overview_idempotent sOverviewDup).1 (by decide),
   (c6_overview_idempotent sOverviewAbs).2.2 ⟨rfl, rfl, by decide⟩⟩

/-- C9 (amended): `company_overview` is assigned exactly by a successful
ingestion — when, after the navigation buttons are handled, the stage is
`initial` and `Process PDFs` is clicked with a non-empty upload, the run
stores the overview generated from the fresh upload; in every other
completed run the field is unchanged.  Since ingestion is re-reachable via
the `Upload Documents` navigation button, the field can be reassigned later
in the same session. -/
theorem c9_overview_assignment_amended (s : SessionState) (i : Inputs)
    (r : RunResult) (h : runMain s i = some r) :
    r.state.company_overview =
      if (navStep s i).conversation_stage = Stage.initial ∧
          i.processClicked = true ∧ i.pdfDocsNonempty = true
      then some (i.newChain overview_prompt [])
      else s.company_overview := by
  rw [runMain_ov h, initialStep_ov (navStep s i) i, ov_navStep s i]

/-- C9 witness: the first processing run of a fresh session assigns the
overview generated for that upload. -/
theorem c9_witness :
    rProcA.state.company_overview =
      if (navStep init_session_state iProcA).conversation_stage = Stage.initial ∧
          iProcA.processClicked = true ∧ iProcA.pdfDocsNonempty = true
      then some (iProcA.newChain overview_prompt [])
      else init_session_state.company_overview :=
  c9_overview_assignment_amended init_session_state iProcA rProcA rfl

/-- C9 counterexample: processing an upload stores the overview
"Acme Corp sells widgets."; in the same session, returning through the
`Upload Documents` navigation button and processing again reassigns
`company_overview` to "Beta LLC rents gadgets.", so the field is not
assigned at most once per session. -/
theorem c9_counterexample :
    (runMain init_session_state iProcA).map
        (fun r => r.state.company_overview) =
      some (some "Acme Corp sells widgets.") ∧
    ((runMain init_session_state iProcA).bind
        (fun r => runMain r.state iProcB)).map
        (fun r => r.state.company_overview) =
      some (some "Beta LLC rents gadgets.") ∧
    ("Acme Corp sells widgets." : String) ≠ "Beta LLC rents gadgets." :=
  ⟨rfl, rfl, by decide⟩

/-! ## The email validator against the spec's pattern -/

lemma takeWhile_split {α : Type} (p : α → Bool) (l : List α) (x : α) (r : List α)
    (hl : ∀ c ∈ l, p c = true) (hx : p x = false) :
    (l ++ x :: r).takeWhile p = l ∧ (l ++ x :: r).dropWhile p = x :: r := by
  induction l with
  | nil =>
    constructor
    · simp [List.takeWhile_cons, hx]
    · simp [List.dropWhile_cons, hx]
  | cons a t ih =>
    have ha : p a = true := hl a (by simp)
    have ht : ∀ c ∈ t, p c = true := fun c hc => hl c (by simp [hc])
    obtain ⟨h1, h2⟩ := ih ht
    constructor
    · simp only [List.cons_append, List.takeWhile_cons, ha, if_true, h1]
    · simp only [List.cons_append, List.dropWhile_cons, ha, if_true, h2]

lemma dropWhile_head_false {α : Type} (p : α → Bool) (l : List α) (c : α)
    (r : List α) (h : l.dropWhile p = c :: r) : p c = false := by
  induction l with
  | nil => simp [List.dropWhile] at h
  | cons a t ih =>
    rw [List.dropWhile_cons] at h
    by_cases hp : p a = true
    · rw [if_pos hp] at h
      exact ih h
    · rw [if_neg hp] at h
      injection h with h1 h2
      rw [← h1]
      simpa using hp

lemma isLocalChar_ne_at {c : Char} (h : isLocalChar c = true) :
    (fun c => decide (c ≠ '@')) c = true := by
  simp only [decide_eq_true_eq]
  intro heq
  rw [heq] at h
  exact absurd h (by decide)

lemma isAlpha_ne_dot {c : Char} (h : c.isAlpha = true) :
    (fun c => decide (c ≠ '.')) c = true := by
  simp only [decide_eq_true_eq]
  intro heq
  rw [heq] at h
  exact absurd h (by decide)

lemma emailDomain_iff (rest : List Char) :
    emailDomain rest = true ↔
      ∃ dom tld : List Char, rest = dom ++ '.' :: tld ∧ dom ≠ [] ∧
        dom.all isDomainChar = true ∧ 2 ≤ tld.length ∧
        tld.all Char.isAlpha = true := by
  constructor
  · intro h
    unfold emailDomain at h
    cases hd : rest.reverse.dropWhile (fun c => decide (c ≠ '.')) with
    | nil => rw [hd] at h; cases h
    | cons c domRev =>
      rw [hd] at h
      dsimp only at h
      have hc : (fun c => decide (c ≠ '.')) c = false :=
        dropWhile_head_false (fun c => decide (c ≠ '.')) rest.reverse c domRev hd
      have hc' : c = '.' := by simpa using hc
      subst hc'
      rw [Bool.and_eq_true, Bool.and_eq_true, Bool.and_eq_true] at h
      obtain ⟨⟨⟨hne, hdom⟩, halpha⟩, hlen⟩ := h
      have hsplit := List.takeWhile_append_dropWhile
        (fun c => decide (c ≠ '.')) rest.reverse
      rw [hd] at hsplit
      refine ⟨domRev.reverse,
        (rest.reverse.takeWhile (fun c => decide (c ≠ '.'))).reverse, ?_, ?_, ?_, ?_, ?_⟩
      · have := congrArg List.reverse hsplit
        rw [List.reverse_reverse] at this
        conv_lhs => rw [← this]
        simp [List.reverse_append]
      · simpa using hne
      · rw [List.all_reverse]
        exact hdom
      · rw [List.length_reverse]
        simpa using hlen
      · rw [List.all_reverse]
        exact halpha
  · rintro ⟨dom, tld, rfl, hne, hdom, hlen, halpha⟩
    have hrev : (dom ++ '.' :: tld).reverse = tld.reverse ++ '.' :: dom.reverse := by
      simp [List.reverse_append]
    have hall : ∀ c ∈ tld.reverse, (fun c => decide (c ≠ '.')) c = true := by
      intro c hc
      rw [List.mem_reverse] at hc
      exact isAlpha_ne_dot (List.all_eq_true.mp halpha c hc)
    have hdot : (fun c => decide (c ≠ '.')) '.' = false := by decide
    obtain ⟨htw, hdw⟩ := takeWhile_split _ tld.reverse '.' dom.reverse hall hdot
    unfold emailDomain
    rw [hrev, hdw, htw]
    dsimp only
    rw [Bool.and_eq_true, Bool.and_eq_true, Bool.and_eq_true]
    refine ⟨⟨⟨?_, ?_⟩, ?_⟩, ?_⟩
    · simpa using hne
    · rw [List.all_reverse]
      exact hdom
    · rw [List.all_reverse]
      exact halpha
    · rw [List.length_reverse]
      simpa using hlen

lemma emailCore_iff (cs : List Char) :
    emailCore cs = true ↔ EmailPatternCore cs := by
  constructor
  · intro h
    unfold emailCore at h
    cases hd : cs.dropWhile (fun c => decide (c ≠ '@')) with
    | nil => rw [hd] at h; cases h
    | cons c rest =>
      rw [hd] at h
      dsimp only at h
      have hc : (fun c => decide (c ≠ '@')) c = false :=
        dropWhile_head_false (fun c => decide (c ≠ '@')) cs c rest hd
      have hc' : c = '@' := by simpa using hc
      subst hc'
      rw [Bool.and_eq_true, Bool.and_eq_true] at h
      obtain ⟨⟨hne, hlp⟩, hdomain⟩ := h
      obtain ⟨dom, tld, hrest, hdne, hdom, hlen, halpha⟩ :=
        (emailDomain_iff rest).mp hdomain
      have hsplit := List.takeWhile_append_dropWhile
        (fun c => decide (c ≠ '@')) cs
      rw [hd] at hsplit
      refine ⟨cs.takeWhile (fun c => decide (c ≠ '@')), dom, tld, ?_, ?_, hlp,
        hdne, hdom, hlen, halpha⟩
      · conv_lhs => rw [← hsplit]
        rw [hrest]
      · simpa using hne
  · rintro ⟨lp, dom, tld, rfl, hlpne, hlp, hdne, hdom, hlen, halpha⟩
    have hall : ∀ c ∈ lp, (fun c => decide (c ≠ '@')) c = true :=
      fun c hc => isLocalChar_ne_at (List.all_eq_true.mp hlp c hc)
    have hat : (fun c => decide (c ≠ '@')) '@' = false := by decide
    obtain ⟨htw, hdw⟩ := takeWhile_split _ lp '@' (dom ++ '.' :: tld) hall hat
    unfold emailCore
    rw [hdw, htw]
    dsimp only
    rw [Bool.and_eq_true, Bool.and_eq_true]
    refine ⟨⟨?_, hlp⟩, ?_⟩
    · simpa using hlpne
    · exact (emailDomain_iff _).mpr ⟨dom, tld, rfl, hdne, hdom, hlen, halpha⟩

lemma validate_email_iff (s : String) :
    validate_email s = true ↔ EmailPatternNL s := by
  unfold validate_email EmailPatternNL
  rw [Bool.or_eq_true, Bool.and_eq_true, decide_eq_true_eq, emailCore_iff,
    emailCore_iff]
  constructor
  · rintro (h | ⟨hlast, hcore⟩)
    · exact Or.inl h
    · obtain ⟨ys, hys⟩ := List.getLast?_eq_some_iff.mp hlast
      right
      refine ⟨s.toList.dropLast, ?_, hcore⟩
      rw [hys, List.dropLast_concat]
  · rintro (h | ⟨cs, hcs, hcore⟩)
    · exact Or.inl h
    · right
      constructor
      · rw [hcs]
        exact List.getLast?_concat cs
      · rw [hcs, List.dropLast_concat]
        exact hcore

/-- C3 (amended): the validator accepts exactly the strings matching
local-part `[A-Za-z0-9._%+-]+`, then `@`, then domain `[A-Za-z0-9.-]+`, then
a dot, then a TLD of two or more letters, *optionally followed by a single
trailing newline* (Python's `$` also matches just before a final newline);
the four examples behave as stated: "user@example.com" and
"a.b+c@sub.domain.io" are accepted, "not-an-email" and "a@b.c" are
rejected. -/
theorem c3_validate_email_amended :
    (∀ s : String, validate_email s = true ↔ EmailPatternNL s) ∧
    validate_email "user@example.com" = true ∧
    validate_email "a.b+c@sub.domain.io" = true ∧
    validate_email "not-an-email" = false ∧
    validate_email "a@b.c" = false :=
  ⟨validate_email_iff, rfl, rfl, rfl, rfl⟩

/-- C3 counterexample: the string "a@bc.de\n" — a matching address plus one
trailing newline — is accepted by the validator (`re.match` with `$`) but
does not match the claim's pattern, which ends at the TLD, so the validator
does not accept exactly the described set of strings. -/
theorem c3_counterexample :
    validate_email "a@bc.de\n" = true ∧
    ¬ EmailPatternCore "a@bc.de\n".toList :=
  ⟨rfl, fun h => absurd ((emailCore_iff _).mpr h) (by decide)⟩
